import Mathlib

/-!
Verification of the plugin-manager reaper and events subsystems.

The Go sources (`reaper/watcher.go`, `events/entry.go`) are shallowly
embedded: the docker and metadata clients are modelled as oracles
(functions returning `Except`/`Option` results), and the side-effecting
calls the code issues (inspect, remove, stop, log) are recorded in an
explicit trace of `Action`s, in program order.
-/

namespace Reaper

/-- Well-known label key holding a container's metadata UUID
(`uuidLabel` in `watcher.go`). -/
def uuidLabel : String := "io.rancher.container.uuid"

/-- Well-known label key holding a container's stack/service name
(`serviceNameLabel` in `watcher.go`). -/
def serviceNameLabel : String := "io.rancher.stack_service.name"

/-- Well-known identifier of the metadata service (`metadataService`). -/
def metadataService : String := "network-services/metadata"

/-- Well-known identifier of the DNS service (`dnsService`). -/
def dnsService : String := "network-services/metadata/dns"

/-- The self host record returned by `metadata.Client.GetSelfHost`. -/
structure Host where
  UUID : String
deriving DecidableEq

/-- A metadata container record (`metadata.Container`) as consumed by
`onChange`: only the fields the code reads. Labels are an association
list standing for the Go `map[string]string`. -/
structure MContainer where
  UUID : String
  ExternalId : String
  HostUUID : String
  Name : String
  Labels : List (String × String)
deriving DecidableEq

/-- The part of `types.ContainerJSON` that `removeContainer` reads from
`ContainerInspect`. -/
structure ContainerJSON where
  Name : String
deriving DecidableEq

/-- A runtime container summary (`types.Container`) as returned by
`ContainerList` and consumed by `CheckMetadata`. -/
structure RContainer where
  ID : String
  State : String
  Labels : List (String × String)
deriving DecidableEq

/-- One observable call issued by the reaper, recorded in program order. -/
inductive Action where
  | inspect (id : String)
  | remove (id : String) (force : Bool)
  | stop (id : String) (timeoutNanos : Nat)
  | logError (msg : String)
  | logInfo (msg : String)
deriving DecidableEq

/-- The docker-client oracle: outcomes of the fallible calls the reaper
issues. `inspectRes id` is the result of `ContainerInspect`,
`removeErr id` the error (if any) of `ContainerRemove`, and
`stopErr id` the error (if any) of `ContainerStop`. -/
structure DockerEnv where
  inspectRes : String → Except String ContainerJSON
  removeErr : String → Option String
  stopErr : String → Option String

/-- `watcher.removeContainer`: inspect the runtime container at
`container.ExternalId`; on inspect failure log and return; if the
resolved name is the reserved agent name return silently; otherwise
log and force-remove, logging a removal failure. -/
def removeContainer (env : DockerEnv) (container : MContainer) : List Action :=
  Action.inspect container.ExternalId ::
    match env.inspectRes container.ExternalId with
    | Except.error e => [Action.logError ("reaper: Inspect failed: " ++ e)]
    | Except.ok c =>
      if c.Name = "/rancher-agent" then []
      else
        Action.logInfo ("reaper:  Removing unmanaged container "
            ++ container.Name ++ " " ++ container.ExternalId) ::
        Action.remove container.ExternalId true ::
          match env.removeErr container.ExternalId with
          | some e => [Action.logError ("reaper: Removed failed: " ++ e)]
          | none => []

/-- The body of the `for` loop in `watcher.onChange` for one metadata
container: skip it unless its `HostUUID` matches the self host's UUID,
skip it when the uuid label is absent, and call `removeContainer` when
the label's value differs from the metadata UUID. -/
def processContainer (env : DockerEnv) (hostUUID : String)
    (container : MContainer) : List Action :=
  if container.HostUUID ≠ hostUUID then []
  else
    match container.Labels.lookup uuidLabel with
    | none => []
    | some uuid =>
      if container.UUID ≠ uuid then removeContainer env container else []

/-- The `for` loop of `watcher.onChange` over the fetched metadata
containers, in list order. -/
def onChangeLoop (env : DockerEnv) (hostUUID : String) :
    List MContainer → List Action
  | [] => []
  | c :: rest => processContainer env hostUUID c ++ onChangeLoop env hostUUID rest

/-- `watcher.onChange`: fetch the self host, fetch the metadata
containers (either failure aborts the pass with that error), then run
the reconciliation loop. `hostRes` and `containersRes` are the oracle
results of `GetSelfHost` and `GetContainers`. -/
def onChange (env : DockerEnv) (hostRes : Except String Host)
    (containersRes : Except String (List MContainer)) :
    Except String (List Action) := do
  let host ← hostRes
  let containers ← containersRes
  pure (onChangeLoop env host.UUID containers)

/-- `watcher.onChangeNoError`: run `onChange` and log any error. -/
def onChangeNoError (env : DockerEnv) (hostRes : Except String Host)
    (containersRes : Except String (List MContainer)) : List Action :=
  match onChange env hostRes containersRes with
  | Except.ok acts => acts
  | Except.error e =>
    [Action.logError ("reaper: Failed to watch for orphan containers: " ++ e)]

/-- Go map read with zero-value default: `container.Labels[key]` is `""`
when the key is absent. -/
def labelGet (labels : List (String × String)) (key : String) : String :=
  (labels.lookup key).getD ""

/-- The ids collected by the filter loop of `CheckMetadata` for one
well-known service: containers in state `"running"` with a non-empty
uuid label whose service-name label equals `service`, in list order. -/
def serviceIds (containers : List RContainer) (service : String) : List String :=
  (containers.filter (fun c =>
    c.State == "running" && labelGet c.Labels uuidLabel != ""
      && labelGet c.Labels serviceNameLabel == service)).map (fun c => c.ID)

/-- The `toStop` list built by `CheckMetadata`: when a well-known
service has more than one match, its last (oldest, under the
newest-first ordering) id is selected; metadata service first, then
DNS service. -/
def dedupToStop (containers : List RContainer) : List String :=
  (if 1 < (serviceIds containers metadataService).length
    then (serviceIds containers metadataService).getLast?.toList else [])
  ++ (if 1 < (serviceIds containers dnsService).length
    then (serviceIds containers dnsService).getLast?.toList else [])

/-- The final `for` loop of `CheckMetadata`: for each selected id, log,
stop with a zero timeout, and log a stop failure. -/
def stopLoop (env : DockerEnv) : List String → List Action
  | [] => []
  | id :: rest =>
    Action.logInfo ("reaper:  Stopping duplicate metadata/dns service: " ++ id) ::
    Action.stop id 0 ::
      ((match env.stopErr id with
        | some _ =>
          [Action.logError ("reaper:  Failed to stop duplicate metadata/dns service: " ++ id)]
        | none => []) ++ stopLoop env rest)

/-- `reaper.CheckMetadata`: list all containers (failure aborts the
pass with that error), collect the duplicate singleton-service
candidates and stop the selected ones. `listRes` is the oracle result
of `ContainerList` with `All: true`. -/
def CheckMetadata (env : DockerEnv) (listRes : Except String (List RContainer)) :
    Except String (List Action) := do
  let containers ← listRes
  pure (stopLoop env (dedupToStop containers))

/-- The ids targeted by the stop calls of a trace, in order. -/
def stopTargets : List Action → List String
  | [] => []
  | Action.stop id _ :: rest => id :: stopTargets rest
  | _ :: rest => stopTargets rest

/-- Modelled from the spec: the poll-interval generator of
`watchMetadata` comes from the third-party `jpillora/backoff` package,
which is not part of this repository. Following the spec's description
("begins at 1s, multiplies by 1.5 per tick, and is clamped at a ceiling
of 5 minutes"), the duration (in seconds) returned by the `n`-th call
of `b.Duration()` with `Min = 1s`, `Max = 5min`, `Factor = 1.5` is
`min (1.5 ^ n) 300`. -/
def backoffDuration (n : Nat) : ℚ :=
  min (1 * (3 / 2 : ℚ) ^ n) 300

/-- One iteration of the `for` loop of `watchMetadata`: log the check's
error if any, then sleep for the backoff duration of the current
attempt counter, which is incremented. Returns the logged actions, the
sleep length in seconds, and the next attempt counter. The error
outcome of `CheckMetadata` at tick `n` is given by the oracle as
`errs n`. -/
def watchTick (errs : Nat → Option String) (n : Nat) (attempt : Nat) :
    List Action × ℚ × Nat :=
  ((match errs n with
    | some e => [Action.logError ("reaper: Failed to check for bad metadata: " ++ e)]
    | none => []),
   backoffDuration attempt, attempt + 1)

/-- The attempt counter held by the backoff value before tick `n`. -/
def watchAttempt (errs : Nat → Option String) : Nat → Nat
  | 0 => 0
  | n + 1 => (watchTick errs n (watchAttempt errs n)).2.2

/-- The sleep interval (in seconds) between tick `n` and tick `n + 1`
of `watchMetadata`. -/
def watchSleep (errs : Nat → Option String) (n : Nat) : ℚ :=
  (watchTick errs n (watchAttempt errs n)).2.1

end Reaper

namespace Events

/-- The source marker of synthetic events (`simulatedEvent` in
`entry.go`). -/
def simulatedEvent : String := "-simulated-"

/-- A container summary as returned by `ListContainers`
(`docker.APIContainers`): only the field `Process` reads. -/
structure PContainer where
  ID : String
deriving DecidableEq

/-- A lifecycle event (`docker.APIEvents`) as built by the replay loop
of `Process`. -/
structure APIEvents where
  ID : String
  Status : String
  From : String
deriving DecidableEq

/-- The handlers wired by `Process`, named after the concrete values in
`entry.go`: the binary-exec watcher `de.bw`, the start handler
`&StartHandler{dockerClient}` and the network-manager handler
`&NetworkManagerHandler{de.nm}`. -/
inductive Handler where
  | bw
  | startHandler
  | nmHandler
deriving DecidableEq

/-- `DockerEventsProcessor.Process`: create the docker client, build
the routing table, construct and start the event router with that
table, list all containers and feed one synthetic start event per
container into the router. The oracles give the outcomes of
`NewDockerClient`, `NewEventRouter` and `ListContainers`; the result is
the routing table handed to the router together with the list of
events fed into `router.listener`, in order. -/
def Process (newClientRes : Except String Unit)
    (newRouterRes : Except String Unit)
    (listRes : Except String (List PContainer)) :
    Except String (List (String × List Handler) × List APIEvents) := do
  let _ ← newClientRes
  let handlers : List (String × List Handler) :=
    [("start", [Handler.bw, Handler.startHandler, Handler.nmHandler]),
     ("die", [Handler.nmHandler])]
  let _ ← newRouterRes
  let containers ← listRes
  pure (handlers, containers.map (fun c =>
    { ID := c.ID, Status := "start", From := simulatedEvent }))

end Events

namespace Reaper

/-- Every action a pass issues for a member of the fetched list appears,
contiguously and in order, in the pass trace. -/
theorem processContainer_sublist (env : DockerEnv) (hostUUID : String)
    {c : MContainer} {containers : List MContainer} (hmem : c ∈ containers) :
    List.Sublist (processContainer env hostUUID c)
      (onChangeLoop env hostUUID containers) := by
  induction containers with
  | nil => cases hmem
  | cons x rest ih =>
    rcases List.mem_cons.mp hmem with h | h
    · subst h
      exact List.sublist_append_left _ _
    · exact (ih h).trans (List.sublist_append_right _ _)

/-- Concrete self host used in the concrete scenarios below. -/
def cHost : Host := ⟨"h1"⟩

/-- A metadata container on host `h1` with no uuid label at all. -/
def cNoLabel : MContainer := ⟨"a1", "d1", "h1", "web", []⟩

/-- A metadata container on host `h1` whose uuid label `"a2"` differs
from its metadata UUID `"a1"` (Scenario A of the spec). -/
def cMismatch : MContainer := ⟨"a1", "d1", "h1", "web", [(uuidLabel, "a2")]⟩

/-- A docker oracle where every inspect resolves to name `"/web-1"` and
every remove and stop succeeds. -/
def cEnv : DockerEnv :=
  ⟨fun _ => Except.ok ⟨"/web-1"⟩, fun _ => none, fun _ => none⟩

/-- Claim C1 (counterexample): a metadata container on the self host
whose uuid label is absent is not treated as an orphan — the pass
issues no action at all for it, contradicting the claim that an
absent label triggers an inspect-and-remove attempt. -/
theorem c1_absent_label_counterexample :
    cNoLabel.HostUUID = cHost.UUID ∧
    cNoLabel.Labels.lookup uuidLabel = none ∧
    onChange cEnv (Except.ok cHost) (Except.ok [cNoLabel]) = Except.ok [] ∧
    Action.inspect cNoLabel.ExternalId ∉ ([] : List Action) := by
  refine ⟨rfl, rfl, rfl, ?_⟩
  simp

/-- Claim C1 (amended): in a pass where both fetches succeed, every
fetched metadata container on the self host whose uuid label is
PRESENT and differs from its metadata UUID has the whole
`removeContainer` call sequence embedded in the pass trace; that
sequence starts with an inspect of its `ExternalId` and, whenever the
inspect resolves to a non-reserved name, contains a force-remove of
its `ExternalId`. -/
theorem onChange_removes_mismatched (env : DockerEnv) (host : Host)
    (containers : List MContainer) (c : MContainer) (u : String)
    (hmem : c ∈ containers) (hhost : c.HostUUID = host.UUID)
    (hlabel : c.Labels.lookup uuidLabel = some u) (hne : c.UUID ≠ u) :
    onChange env (Except.ok host) (Except.ok containers)
      = Except.ok (onChangeLoop env host.UUID containers) ∧
    List.Sublist (removeContainer env c) (onChangeLoop env host.UUID containers) ∧
    (removeContainer env c).head? = some (Action.inspect c.ExternalId) ∧
    (∀ j, env.inspectRes c.ExternalId = Except.ok j → j.Name ≠ "/rancher-agent" →
      Action.remove c.ExternalId true ∈ removeContainer env c) := by
  have hproc : processContainer env host.UUID c = removeContainer env c := by
    unfold processContainer
    rw [if_neg (by simp [hhost]), hlabel]
    show (if c.UUID ≠ u then removeContainer env c else []) = removeContainer env c
    rw [if_pos hne]
  refine ⟨rfl, ?_, rfl, ?_⟩
  · rw [← hproc]
    exact processContainer_sublist env host.UUID hmem
  · intro j hj hname
    unfold removeContainer
    rw [hj]
    simp [hname]

/-- Claim C1 (witness): Scenario A — the pass over `[cMismatch]` embeds
the removal attempt for `"d1"`. -/
theorem c1_witness :
    List.Sublist (removeContainer cEnv cMismatch)
      (onChangeLoop cEnv cHost.UUID [cMismatch]) :=
  (onChange_removes_mismatched cEnv cHost [cMismatch] cMismatch "a2"
    (by simp) rfl rfl (by decide)).2.1

/-- Claim C2: a metadata container whose Labels map has no uuid-label
key is skipped entirely — the loop body contributes no action for it
(so no inspect and no removal), and the pass trace with it present is
the pass trace with it removed; its `HostUUID` plays no role. -/
theorem onChange_skips_unlabeled (env : DockerEnv) (hostUUID : String)
    (c : MContainer) (rest : List MContainer)
    (h : c.Labels.lookup uuidLabel = none) :
    processContainer env hostUUID c = [] ∧
    onChangeLoop env hostUUID (c :: rest) = onChangeLoop env hostUUID rest := by
  have hp : processContainer env hostUUID c = [] := by
    unfold processContainer
    rw [h]
    split <;> rfl
  exact ⟨hp, by simp [onChangeLoop, hp]⟩

/-- Claim C2 (witness): the unlabeled container `cNoLabel` contributes
no action even though its `HostUUID` matches the self host. -/
theorem c2_witness :
    processContainer cEnv cHost.UUID cNoLabel = [] :=
  (onChange_skips_unlabeled cEnv cHost.UUID cNoLabel [] rfl).1

/-- A docker oracle where every inspect resolves to the reserved agent
name. -/
def cAgentEnv : DockerEnv :=
  ⟨fun _ => Except.ok ⟨"/rancher-agent"⟩, fun _ => none, fun _ => none⟩

/-- Claim C6: when the inspect call resolves a container's runtime name
to the reserved `"/rancher-agent"`, `removeContainer` issues the
inspect and nothing else — in particular no removal call, whatever the
uuid mismatch that routed the container here. -/
theorem removeContainer_spares_agent (env : DockerEnv) (c : MContainer)
    (j : ContainerJSON) (hj : env.inspectRes c.ExternalId = Except.ok j)
    (hname : j.Name = "/rancher-agent") :
    removeContainer env c = [Action.inspect c.ExternalId] ∧
    ∀ id force, Action.remove id force ∉ removeContainer env c := by
  have h : removeContainer env c = [Action.inspect c.ExternalId] := by
    unfold removeContainer
    rw [hj]
    simp [hname]
  refine ⟨h, ?_⟩
  intro id force
  rw [h]
  simp

/-- Claim C6 (witness): Scenario B — the mismatched container resolving
to `"/rancher-agent"` is only inspected, never removed. -/
theorem c6_witness :
    removeContainer cAgentEnv cMismatch = [Action.inspect cMismatch.ExternalId] :=
  (removeContainer_spares_agent cAgentEnv cMismatch ⟨"/rancher-agent"⟩ rfl rfl).1

/-- Claim C7: if fetching the self host or fetching the metadata
container list fails, `onChange` returns exactly that error and its
trace is empty (no inspect, removal or any other call), and the
`onChangeNoError` wrapper surfaces the error as a single log line and
nothing else. -/
theorem onChange_fetch_failure (env : DockerEnv) (e : String)
    (host : Host) (containersRes : Except String (List MContainer)) :
    onChange env (Except.error e) containersRes = Except.error e ∧
    onChange env (Except.ok host) (Except.error e) = Except.error e ∧
    onChangeNoError env (Except.error e) containersRes
      = [Action.logError ("reaper: Failed to watch for orphan containers: " ++ e)] ∧
    onChangeNoError env (Except.ok host) (Except.error e)
      = [Action.logError ("reaper: Failed to watch for orphan containers: " ++ e)] :=
  ⟨rfl, rfl, rfl, rfl⟩

end Reaper

namespace Reaper

/-- A docker oracle where inspecting `"x1"` fails, every other inspect
resolves to `"/web-2"`, and every remove fails with `"rmfail"`. -/
def cFailEnv : DockerEnv :=
  ⟨fun id => if id = "x1" then Except.error "boom" else Except.ok ⟨"/web-2"⟩,
   fun _ => some "rmfail",
   fun _ => none⟩

/-- A mismatched container whose runtime id is `"x1"`. -/
def cX1 : MContainer := ⟨"b1", "x1", "h1", "webx", [(uuidLabel, "zz")]⟩

/-- A mismatched container whose runtime id is `"x2"`. -/
def cX2 : MContainer := ⟨"b2", "x2", "h1", "weby", [(uuidLabel, "zz")]⟩

/-- Claim C8: item-level failures stay local. A failed inspect yields
only a log line and no removal for that container; a failed removal
yields the removal attempt followed by a log line; the loop always
processes the remaining containers unchanged after any item; and a pass
whose two fetches succeeded always completes without error. -/
theorem onChange_item_failures (env : DockerEnv) (u : String)
    (c₁ c₂ c : MContainer) (rest : List MContainer) (e₁ e₂ : String)
    (j : ContainerJSON)
    (h1 : env.inspectRes c₁.ExternalId = Except.error e₁)
    (h2 : env.inspectRes c₂.ExternalId = Except.ok j)
    (h3 : j.Name ≠ "/rancher-agent")
    (h4 : env.removeErr c₂.ExternalId = some e₂) :
    removeContainer env c₁
      = [Action.inspect c₁.ExternalId,
         Action.logError ("reaper: Inspect failed: " ++ e₁)] ∧
    (∀ id force, Action.remove id force ∉ removeContainer env c₁) ∧
    removeContainer env c₂
      = [Action.inspect c₂.ExternalId,
         Action.logInfo ("reaper:  Removing unmanaged container "
           ++ c₂.Name ++ " " ++ c₂.ExternalId),
         Action.remove c₂.ExternalId true,
         Action.logError ("reaper: Removed failed: " ++ e₂)] ∧
    onChangeLoop env u (c :: rest)
      = processContainer env u c ++ onChangeLoop env u rest ∧
    (∀ host containers, onChange env (Except.ok host) (Except.ok containers)
      = Except.ok (onChangeLoop env host.UUID containers)) := by
  have ha : removeContainer env c₁
      = [Action.inspect c₁.ExternalId,
         Action.logError ("reaper: Inspect failed: " ++ e₁)] := by
    unfold removeContainer
    rw [h1]
  refine ⟨ha, ?_, ?_, rfl, fun _ _ => rfl⟩
  · intro id force
    rw [ha]
    simp
  · unfold removeContainer
    rw [h2, h4]
    simp [h3]

/-- Claim C8 (witness): the failed inspect of `"x1"` produces only the
inspect attempt and a log line. -/
theorem c8_witness :
    removeContainer cFailEnv cX1
      = [Action.inspect cX1.ExternalId,
         Action.logError ("reaper: Inspect failed: " ++ "boom")] :=
  (onChange_item_failures cFailEnv "h1" cX1 cX2 cX1 [] "boom" "rmfail"
    ⟨"/web-2"⟩ rfl rfl (by decide) rfl).1

/-- The stop targets of the stop loop are exactly the ids it was given,
in order. -/
theorem stopTargets_stopLoop (env : DockerEnv) :
    ∀ ids, stopTargets (stopLoop env ids) = ids := by
  intro ids
  induction ids with
  | nil => rfl
  | cons id rest ih =>
    cases h : env.stopErr id <;> simp [stopLoop, h, stopTargets, ih]

/-- Claim C3: the stop calls of a detection pass target exactly the
last (oldest under the newest-first ordering) collected id of each
well-known service that has more than one collected id — so a service
with at most one running match gets zero stop calls, and one with more
gets exactly one, aimed at its last match. -/
theorem checkMetadata_dedup (env : DockerEnv) (containers : List RContainer) :
    CheckMetadata env (Except.ok containers)
      = Except.ok (stopLoop env (dedupToStop containers)) ∧
    stopTargets (stopLoop env (dedupToStop containers)) = dedupToStop containers ∧
    dedupToStop containers
      = (if 1 < (serviceIds containers metadataService).length
          then (serviceIds containers metadataService).getLast?.toList else [])
        ++ (if 1 < (serviceIds containers dnsService).length
          then (serviceIds containers dnsService).getLast?.toList else []) :=
  ⟨rfl, stopTargets_stopLoop env _, rfl⟩

/-- Every stop the stop loop issues carries a zero timeout. -/
theorem stopLoop_timeout_zero (env : DockerEnv) :
    ∀ ids id t, Action.stop id t ∈ stopLoop env ids → t = 0 := by
  intro ids
  induction ids with
  | nil =>
    intro id t h
    simp [stopLoop] at h
  | cons x rest ih =>
    intro id t h
    cases he : env.stopErr x <;> simp [stopLoop, he] at h <;>
      rcases h with ⟨_, h0⟩ | hrest
    · exact h0
    · exact ih id t hrest
    · exact h0
    · exact ih id t hrest

/-- Claim C10: every stop call in the trace of a detection pass uses a
grace period of exactly zero. -/
theorem checkMetadata_stop_grace_zero (env : DockerEnv)
    (listRes : Except String (List RContainer)) (trace : List Action)
    (id : String) (t : Nat)
    (hok : CheckMetadata env listRes = Except.ok trace)
    (hmem : Action.stop id t ∈ trace) : t = 0 := by
  rcases listRes with e | containers
  · exact absurd hok (by simp [CheckMetadata])
  · have htr : stopLoop env (dedupToStop containers) = trace := by
      simpa [CheckMetadata] using hok
    rw [← htr] at hmem
    exact stopLoop_timeout_zero env _ id t hmem

/-- Two running metadata-service containers sharing uuid labels; the
list is newest-first, so `"m1"` is the oldest. -/
def cDup : List RContainer :=
  [⟨"m2", "running", [(uuidLabel, "u"), (serviceNameLabel, metadataService)]⟩,
   ⟨"m1", "running", [(uuidLabel, "u"), (serviceNameLabel, metadataService)]⟩]

/-- Claim C10 (witness): the duplicate-metadata scenario issues a stop
of `"m1"`, and that stop's timeout is zero. -/
theorem c10_witness :
    Action.stop "m1" 0 ∈ stopLoop cEnv (dedupToStop cDup) ∧ (0 : Nat) = 0 :=
  ⟨by decide,
   checkMetadata_stop_grace_zero cEnv (Except.ok cDup)
     (stopLoop cEnv (dedupToStop cDup)) "m1" 0 rfl (by decide)⟩

end Reaper

namespace Reaper

/-- The backoff duration with its unit factor simplified. -/
theorem backoffDuration_eq (n : Nat) :
    backoffDuration n = min ((3 / 2 : ℚ) ^ n) 300 := by
  rw [backoffDuration, one_mul]

/-- Each tick multiplies the interval by 1.5 and clamps it at 300s. -/
theorem backoffDuration_succ (n : Nat) :
    backoffDuration (n + 1) = min (backoffDuration n * (3 / 2)) 300 := by
  rw [backoffDuration_eq, backoffDuration_eq, pow_succ]
  rcases le_total ((3 / 2 : ℚ) ^ n) 300 with h | h
  · rw [min_eq_left h]
  · have hmul : (300 : ℚ) ≤ (3 / 2 : ℚ) ^ n * (3 / 2) :=
      h.trans (le_mul_of_one_le_right (by positivity) (by norm_num))
    rw [min_eq_right h, min_eq_right hmul, min_eq_right (by norm_num : (300 : ℚ) ≤ 300 * (3 / 2))]

/-- The attempt counter of the backoff value advances by one per tick,
whatever the error outcomes were. -/
theorem watchAttempt_eq (errs : Nat → Option String) :
    ∀ n, watchAttempt errs n = n := by
  intro n
  induction n with
  | zero => rfl
  | succ n ih => simp [watchAttempt, watchTick, ih]

/-- The sleep after tick `n` is the backoff duration at attempt `n`,
whatever the error outcomes were. -/
theorem watchSleep_eq (errs : Nat → Option String) (n : Nat) :
    watchSleep errs n = backoffDuration n := by
  simp [watchSleep, watchTick, watchAttempt_eq]

/-- Claim C4: for any sequence of detection-pass outcomes, the sleep
intervals of `watchMetadata` begin at 1 second, are multiplied by 1.5
and clamped at 300 seconds on every tick, are non-decreasing and never
exceed 300 seconds, stay at 300 seconds forever once reached, and do
not depend on whether the passes succeeded or failed. -/
theorem watchMetadata_backoff (errs errsB : Nat → Option String) :
    watchSleep errs 0 = 1 ∧
    (∀ n, watchSleep errs (n + 1) = min (watchSleep errs n * (3 / 2)) 300) ∧
    Monotone (watchSleep errs) ∧
    (∀ n, watchSleep errs n ≤ 300) ∧
    (∀ n m, watchSleep errs n = 300 → n ≤ m → watchSleep errs m = 300) ∧
    (∀ n, watchSleep errs n = watchSleep errsB n) := by
  have hle : ∀ n, watchSleep errs n ≤ 300 := by
    intro n
    rw [watchSleep_eq, backoffDuration_eq]
    exact min_le_right _ _
  have hpos : ∀ n, (0 : ℚ) ≤ watchSleep errs n := by
    intro n
    rw [watchSleep_eq, backoffDuration_eq]
    exact le_min (by positivity) (by norm_num)
  have hsucc : ∀ n, watchSleep errs (n + 1) = min (watchSleep errs n * (3 / 2)) 300 := by
    intro n
    rw [watchSleep_eq, watchSleep_eq, backoffDuration_succ]
  have hmono : Monotone (watchSleep errs) := by
    apply monotone_nat_of_le_succ
    intro n
    rw [hsucc]
    exact le_min (le_mul_of_one_le_right (hpos n) (by norm_num)) (hle n)
  refine ⟨by rw [watchSleep_eq]; norm_num [backoffDuration_eq], hsucc, hmono, hle, ?_, ?_⟩
  · intro n m h300 hnm
    exact le_antisymm (hle m) (h300 ▸ hmono hnm)
  · intro n
    rw [watchSleep_eq, watchSleep_eq]

/-- Claim C4 (witness): the first sleep interval is one second. -/
theorem c4_witness : watchSleep (fun _ => none) 0 = 1 :=
  (watchMetadata_backoff (fun _ => none) (fun _ => some "err")).1

end Reaper

namespace Events

/-- The routing table built by `Process`, as a literal. -/
def wiredTable : List (String × List Handler) :=
  [("start", [Handler.bw, Handler.startHandler, Handler.nmHandler]),
   ("die", [Handler.nmHandler])]

/-- Claim C9: whenever `Process` succeeds, the routing table it hands
to the event router maps `"start"` to exactly the ordered list
[binary-exec watcher, start handler, network-manager handler] and
`"die"` to exactly [network-manager handler], with no other status
keys. -/
theorem process_routing_table (newClientRes newRouterRes : Except String Unit)
    (listRes : Except String (List PContainer))
    (tbl : List (String × List Handler)) (evs : List APIEvents)
    (hok : Process newClientRes newRouterRes listRes = Except.ok (tbl, evs)) :
    tbl = wiredTable := by
  rcases newClientRes with e | u
  · exact Except.noConfusion hok
  rcases newRouterRes with e | u'
  · exact Except.noConfusion hok
  rcases listRes with e | cs
  · exact Except.noConfusion hok
  · have hpair : (wiredTable,
        cs.map (fun c =>
          ({ ID := c.ID, Status := "start", From := simulatedEvent } : APIEvents)))
        = (tbl, evs) := by injection hok
    rw [Prod.mk.injEq] at hpair
    exact hpair.1.symm

/-- Claim C5: whenever `Process` succeeds, the events fed into the
router's ingestion point are exactly one per container of the
all-states listing, in listing order, each with status `"start"` and
the simulated-event source marker, and no others. -/
theorem process_replays_all (newClientRes newRouterRes : Except String Unit)
    (listRes : Except String (List PContainer))
    (tbl : List (String × List Handler)) (evs : List APIEvents)
    (hok : Process newClientRes newRouterRes listRes = Except.ok (tbl, evs)) :
    ∃ cs, listRes = Except.ok cs ∧
      evs = cs.map (fun c => { ID := c.ID, Status := "start", From := simulatedEvent }) ∧
      evs.length = cs.length ∧
      ∀ e ∈ evs, e.Status = "start" ∧ e.From = simulatedEvent := by
  rcases newClientRes with e | u
  · exact Except.noConfusion hok
  rcases newRouterRes with e | u'
  · exact Except.noConfusion hok
  rcases listRes with e | cs
  · exact Except.noConfusion hok
  · refine ⟨cs, rfl, ?_⟩
    have hpair : (wiredTable,
        cs.map (fun c =>
          ({ ID := c.ID, Status := "start", From := simulatedEvent } : APIEvents)))
        = (tbl, evs) := by injection hok
    rw [Prod.mk.injEq] at hpair
    have hevs : evs = cs.map (fun c =>
        { ID := c.ID, Status := "start", From := simulatedEvent }) := hpair.2.symm
    subst hevs
    refine ⟨rfl, by simp, ?_⟩
    intro e he
    rcases List.mem_map.mp he with ⟨c, _, hc⟩
    rw [← hc]
    exact ⟨rfl, rfl⟩

/-- The container listing of Scenario D: one exited and one running
container at startup. -/
def wList : List PContainer := [⟨"c1"⟩, ⟨"c2"⟩]

/-- The synthetic events `Process` feeds for `wList`. -/
def wEvents : List APIEvents := wList.map (fun c =>
  { ID := c.ID, Status := "start", From := simulatedEvent })

/-- Claim C9 (witness): with all three setup steps succeeding on
`wList`, the table handed over is the wired literal. -/
theorem c9_witness : wiredTable = wiredTable :=
  process_routing_table (Except.ok ()) (Except.ok ()) (Except.ok wList)
    wiredTable wEvents rfl

/-- Claim C5 (witness): Scenario D — the listing `[c1, c2]` yields
exactly its two synthetic start events, each carrying the simulated
marker. -/
theorem c5_witness :
    ∃ cs, (Except.ok wList : Except String (List PContainer)) = Except.ok cs ∧
      wEvents = cs.map (fun c =>
        { ID := c.ID, Status := "start", From := simulatedEvent }) ∧
      wEvents.length = cs.length ∧
      ∀ e ∈ wEvents, e.Status = "start" ∧ e.From = simulatedEvent :=
  process_replays_all (Except.ok ()) (Except.ok ()) (Except.ok wList)
    wiredTable wEvents rfl

end Events
